import Mathlib

/-!
# Verification of the arb-checker validation pipeline

A shallow embedding of the Rust sources of `arb-checker` (src/main.rs,
src/file_opt.rs): a command-line consistency checker for localization-style
key/value files.  The pipeline validates file extensions, file existence,
parses each file into a flat string-to-string map, and then checks that all
maps have the same non-zero cardinality and identical key sets.

Rust's `HashMap<String, String>` is embedded as an association list with
no duplicate keys (`Data`); `Result<T, eyre::Report>` becomes
`Except String T` carrying the error message; `Vec::sort` on the collected
keys / lengths becomes `List.insertionSort` (any correct comparison sort);
filesystem probes become oracles (`FS`), and `read_json` becomes a parse
oracle, since their outcomes are environment-determined.
-/

namespace ArbChecker

/-- Rust `str::ends_with`: the suffix's characters are a suffix of the
string's characters (case-sensitive, exact). -/
def ends_with (s suffix : String) : Bool :=
  List.isSuffixOf suffix.data s.data

/-- Embedding of `type Data = HashMap<String, String>`: an association list
of key/value pairs whose keys are pairwise distinct (the `HashMap` key
uniqueness invariant). -/
structure Data where
  entries : List (String × String)
  nodup_keys : (entries.map Prod.fst).Nodup

/-- `HashMap::keys` (as a list, in entry order). -/
def Data.keys (d : Data) : List String :=
  d.entries.map Prod.fst

/-- `HashMap::len`: the number of key/value pairs. -/
def Data.len (d : Data) : Nat :=
  d.entries.length

/-- `check_file_extension` (src/file_opt.rs:44, identical to
`check_file_ext` in src/main.rs:18): iterates over the paths and errors on
the first one that ends neither in `.json` nor in `.arb`. -/
def check_file_extension : List String → Except String Unit
  | [] => .ok ()
  | file_path :: rest =>
    if !(ends_with file_path ".json") && !(ends_with file_path ".arb") then
      .error "file name must end with .json or .arb"
    else
      check_file_extension rest

/-- Lexicographic comparison of character lists, the order in which Rust's
`Vec::sort` arranges `String`s. -/
def lexLe : List Char → List Char → Bool
  | [], _ => true
  | _ :: _, [] => false
  | a :: as, b :: bs =>
    if a < b then true
    else if b < a then false
    else lexLe as bs

/-- Lexicographic order on strings (Rust's `String` ordering). -/
def strLe (a b : String) : Bool :=
  lexLe a.data b.data

/-- The per-map key canonicalization inside `check_files_equal`:
`let mut keys = d.keys().collect(); keys.sort();`. -/
def sortedKeys (d : Data) : List String :=
  d.keys.insertionSort (fun a b => strLe a b = true)

/-- The `for key in key_iter` loop of `check_files_equal`: compares every
remaining sorted key list against the first one, erroring on the first
mismatch. -/
def equalLoop (first : List String) : List (List String) → Except String Unit
  | [] => .ok ()
  | key :: rest =>
    if first ≠ key then .error "files does not have the same keys"
    else equalLoop first rest

/-- The comparison step of `check_files_equal`, operating on the collected
sorted key lists: `key_iter.next()` either yields the reference list or fails
with the `wrap_err` message, then the loop compares the rest against it. -/
def filesEqualCheck : List (List String) → Except String Unit
  | [] => .error "could not get first item"
  | first :: rest => equalLoop first rest

/-- `check_files_equal` (src/file_opt.rs:90, identical in src/main.rs:78):
maps every `Data` to its sorted key list, takes the first as reference
(erroring when there is none), and errors on the first list that differs. -/
def check_files_equal (data : List Data) : Except String Unit :=
  filesEqualCheck (data.map sortedKeys)

/-- The comparison step of `check_key_length`, operating on the sorted list
of cardinalities: `key_lengths.first()` / `key_lengths.last()` are the
`head?` / `getLast?` of the sorted vector, erroring with the `wrap_err`
messages when absent. -/
def lengthCheck (key_lengths : List Nat) : Except String Unit :=
  match key_lengths.head? with
  | none => .error "no first item"
  | some first =>
    match key_lengths.getLast? with
    | none => .error "no last item"
    | some last =>
      if first = 0 ∨ last = 0 then
        .error "file is empty"
      else if first ≠ last then
        .error "files does not have the same key-value pair"
      else
        .ok ()

/-- `check_key_length` (src/file_opt.rs:198, identical in src/main.rs:48):
collects all map cardinalities, sorts them, and compares the first (minimum)
and last (maximum) entries. -/
def check_key_length (data : List Data) : Except String Unit :=
  lengthCheck ((data.map Data.len).insertionSort (fun a b => a ≤ b))

/-- Filesystem oracle for `check_files_exist`: `Path::try_exists` may fail
with an I/O or permission error (modelled by `Except`), and `Path::is_file`
reports whether the path is a regular file. -/
structure FS where
  tryExists : String → Except String Bool
  isFile : String → Bool

/-- `check_files_exist` (src/file_opt.rs:143, identical in src/main.rs:29):
probes existence (propagating a probe failure wrapped in the
"file permission related issue" context), then errors when the path does not
exist, then errors when it is not a regular file. -/
def check_files_exist (fs : FS) (file_path : String) : Except String Unit :=
  match fs.tryExists file_path with
  | .error e => .error ("file permission related issue: " ++ e)
  | .ok is_exist =>
    let is_file := fs.isFile file_path
    if !is_exist then .error "file does not exist"
    else if !is_file then .error "given path is not a file"
    else .ok ()

/-- The `for file in &cli.file { check_files_exist(file)?; }` loop of
`main`. -/
def checkAllExist (fs : FS) : List String → Except String Unit
  | [] => .ok ()
  | file :: rest =>
    match check_files_exist fs file with
    | .error e => .error e
    | .ok _ => checkAllExist fs rest

/-- The read loop of `main`: `for file in &cli.file { file_vec.push(read_json(file)?); }`,
with `read_json` an oracle (file contents are environment-determined). -/
def readAll (read_json : String → Except String Data) :
    List String → Except String (List Data)
  | [] => .ok []
  | file :: rest =>
    match read_json file with
    | .error e => .error e
    | .ok d =>
      match readAll read_json rest with
      | .error e => .error e
      | .ok ds => .ok (d :: ds)

/-- `main` (src/main.rs:101): guards that at least two files were supplied,
then runs extension check, existence checks, reads, key-length check and
key-equality check in order, propagating the first error. -/
def runMain (fs : FS) (read_json : String → Except String Data)
    (files : List String) : Except String Unit :=
  if files.length < 2 then
    .error "provide at least two files"
  else
    match check_file_extension files with
    | .error e => .error e
    | .ok _ =>
      match checkAllExist fs files with
      | .error e => .error e
      | .ok _ =>
        match readAll read_json files with
        | .error e => .error e
        | .ok file_vec =>
          match check_key_length file_vec with
          | .error e => .error e
          | .ok _ => check_files_equal file_vec

/-! Concrete sample values, used to evaluate the validators on the inputs of
the spec's end-to-end scenarios. -/

/-- The map `{"key1":"value1","key2":"value2"}`. -/
def mapKey12 : Data := ⟨[("key1", "value1"), ("key2", "value2")], by decide⟩

/-- The map `{"key1":"other1","key2":"other2"}`: the same key set as
`mapKey12` with different values. -/
def mapKey12v : Data := ⟨[("key1", "other1"), ("key2", "other2")], by decide⟩

/-- The map `{"key1":"value1"}`. -/
def mapKey1 : Data := ⟨[("key1", "value1")], by decide⟩

/-- The map `{"key3":"v","key2":"v"}` (same cardinality as `mapKey12`, but a
different key set). -/
def mapKey32 : Data := ⟨[("key3", "v"), ("key2", "v")], by decide⟩

/-- The empty map `{}`. -/
def mapEmpty : Data := ⟨[], by decide⟩

/-- A filesystem on which every path exists as a regular file. -/
def allFilesFS : FS := ⟨fun _ => .ok true, fun _ => true⟩

/-- A filesystem on which every existence probe fails with an I/O error. -/
def probeFailFS : FS := ⟨fun _ => .error "probe failed", fun _ => false⟩

/-- A filesystem with one regular file `"a.json"` and one directory
`"somedir"`. -/
def oneFileFS : FS :=
  ⟨fun p => .ok (p == "a.json" || p == "somedir"), fun p => p == "a.json"⟩

/-!
## Order lemmas for the lexicographic comparator
-/

theorem lexLe_nil_left (l : List Char) : lexLe [] l = true := rfl

theorem lexLe_total : ∀ l₁ l₂ : List Char, lexLe l₁ l₂ = true ∨ lexLe l₂ l₁ = true := by
  intro l₁
  induction l₁ with
  | nil => intro l₂; exact Or.inl rfl
  | cons a as ih =>
    intro l₂
    cases l₂ with
    | nil => exact Or.inr rfl
    | cons b bs =>
      rcases lt_trichotomy a b with h | h | h
      · left; simp [lexLe, h]
      · subst h
        rcases ih bs with h' | h'
        · left; simp [lexLe, lt_irrefl, h']
        · right; simp [lexLe, lt_irrefl, h']
      · right; simp [lexLe, h]

theorem lexLe_trans : ∀ l₁ l₂ l₃ : List Char, lexLe l₁ l₂ = true →
    lexLe l₂ l₃ = true → lexLe l₁ l₃ = true := by
  intro l₁
  induction l₁ with
  | nil => intro l₂ l₃ _ _; rfl
  | cons a as ih =>
    intro l₂ l₃ h12 h23
    cases l₂ with
    | nil => simp [lexLe] at h12
    | cons b bs =>
      cases l₃ with
      | nil => simp [lexLe] at h23
      | cons c cs =>
        by_cases hab : a < b
        · by_cases hbc : b < c
          · simp [lexLe, lt_trans hab hbc]
          · by_cases hcb : c < b
            · simp [lexLe, hbc, hcb] at h23
            · have hbceq : b = c := le_antisymm (not_lt.mp hcb) (not_lt.mp hbc)
              subst hbceq
              simp [lexLe, hab]
        · by_cases hba : b < a
          · simp [lexLe, hab, hba] at h12
          · have habeq : a = b := le_antisymm (not_lt.mp hba) (not_lt.mp hab)
            subst habeq
            simp only [lexLe, lt_irrefl, if_false] at h12
            by_cases hac : a < c
            · simp [lexLe, hac]
            · by_cases hca : c < a
              · simp [lexLe, hac, hca] at h23
              · have haceq : a = c := le_antisymm (not_lt.mp hca) (not_lt.mp hac)
                subst haceq
                simp only [lexLe, lt_irrefl, if_false] at h23 ⊢
                exact ih bs cs h12 h23

theorem lexLe_antisymm : ∀ l₁ l₂ : List Char, lexLe l₁ l₂ = true →
    lexLe l₂ l₁ = true → l₁ = l₂ := by
  intro l₁
  induction l₁ with
  | nil =>
    intro l₂ _ h21
    cases l₂ with
    | nil => rfl
    | cons b bs => simp [lexLe] at h21
  | cons a as ih =>
    intro l₂ h12 h21
    cases l₂ with
    | nil => simp [lexLe] at h12
    | cons b bs =>
      by_cases hab : a < b
      · simp [lexLe, hab, lt_asymm hab] at h21
      · by_cases hba : b < a
        · simp [lexLe, hab, hba] at h12
        · have habeq : a = b := le_antisymm (not_lt.mp hba) (not_lt.mp hab)
          subst habeq
          simp only [lexLe, lt_irrefl, if_false] at h12 h21
          rw [ih bs h12 h21]

theorem strLe_antisymm (a b : String) (h1 : strLe a b = true)
    (h2 : strLe b a = true) : a = b := by
  cases a with
  | mk da =>
    cases b with
    | mk db =>
      have : da = db := lexLe_antisymm da db h1 h2
      rw [this]

instance : IsTotal String (fun a b => strLe a b = true) :=
  ⟨fun a b => lexLe_total a.data b.data⟩

instance : IsTrans String (fun a b => strLe a b = true) :=
  ⟨fun a b c => lexLe_trans a.data b.data c.data⟩

instance : IsAntisymm String (fun a b => strLe a b = true) :=
  ⟨strLe_antisymm⟩

/-!
## Canonicalized key lists
-/

theorem sortedKeys_perm (d : Data) : List.Perm (sortedKeys d) d.keys :=
  List.perm_insertionSort _ _

theorem sortedKeys_sorted (d : Data) :
    List.Sorted (fun a b => strLe a b = true) (sortedKeys d) :=
  List.sorted_insertionSort _ _

theorem sortedKeys_nodup (d : Data) : (sortedKeys d).Nodup :=
  ((sortedKeys_perm d).nodup_iff).mpr d.nodup_keys

/-- Two maps have equal sorted key lists exactly when they have equal key
sets. -/
theorem sortedKeys_eq_iff (d e : Data) :
    sortedKeys d = sortedKeys e ↔ d.keys.toFinset = e.keys.toFinset := by
  constructor
  · intro h
    calc d.keys.toFinset
        = (sortedKeys d).toFinset := (List.toFinset_eq_of_perm _ _ (sortedKeys_perm d)).symm
      _ = (sortedKeys e).toFinset := by rw [h]
      _ = e.keys.toFinset := List.toFinset_eq_of_perm _ _ (sortedKeys_perm e)
  · intro h
    have hperm : List.Perm (sortedKeys d) (sortedKeys e) := by
      refine (List.perm_ext_iff_of_nodup (sortedKeys_nodup d) (sortedKeys_nodup e)).mpr ?_
      intro x
      rw [(sortedKeys_perm d).mem_iff, (sortedKeys_perm e).mem_iff,
        ← List.mem_toFinset, h, List.mem_toFinset]
    exact List.eq_of_perm_of_sorted hperm (sortedKeys_sorted d) (sortedKeys_sorted e)

/-!
## Characterization of the key-equality validator
-/

theorem equalLoop_ok_iff (first : List String) :
    ∀ ks, equalLoop first ks = .ok () ↔ ∀ k ∈ ks, first = k := by
  intro ks
  induction ks with
  | nil => simp [equalLoop]
  | cons k rest ih =>
    by_cases h : first = k
    · simp [equalLoop, h] at ih ⊢
      exact ih
    · simp only [equalLoop, if_pos h]
      constructor
      · intro hfalse; cases hfalse
      · intro hall
        exact absurd (hall k (List.mem_cons_self _ _)) h

theorem equalLoop_cases (first : List String) : ∀ ks,
    equalLoop first ks = .ok () ∨
      equalLoop first ks = .error "files does not have the same keys" := by
  intro ks
  induction ks with
  | nil => exact Or.inl rfl
  | cons k rest ih =>
    by_cases h : first = k
    · simpa [equalLoop, h] using ih
    · simp [equalLoop, h]

/-- Full characterization of success of `check_files_equal`: the input list
is non-empty and all key sets are pairwise equal. -/
theorem check_files_equal_ok_iff (data : List Data) :
    check_files_equal data = .ok () ↔
      data ≠ [] ∧ ∀ d ∈ data, ∀ e ∈ data, d.keys.toFinset = e.keys.toFinset := by
  cases data with
  | nil => simp [check_files_equal, filesEqualCheck]
  | cons d ds =>
    simp only [check_files_equal, List.map_cons, filesEqualCheck]
    rw [equalLoop_ok_iff]
    constructor
    · intro h
      refine ⟨by simp, ?_⟩
      have key : ∀ e ∈ ds, d.keys.toFinset = e.keys.toFinset := by
        intro e he
        exact (sortedKeys_eq_iff d e).mp (h _ (List.mem_map_of_mem _ he))
      intro x hx y hy
      rcases List.mem_cons.mp hx with hxd | hxds
      · rcases List.mem_cons.mp hy with hyd | hyds
        · rw [hxd, hyd]
        · rw [hxd]; exact key _ hyds
      · rcases List.mem_cons.mp hy with hyd | hyds
        · rw [hyd]; exact (key _ hxds).symm
        · exact (key _ hxds).symm.trans (key _ hyds)
    · rintro ⟨-, hall⟩
      intro k hk
      rcases List.mem_map.mp hk with ⟨e, he, rfl⟩
      exact (sortedKeys_eq_iff d e).mpr
        (hall d (List.mem_cons_self _ _) e (List.mem_cons.mpr (Or.inr he)))

/-- On a non-empty input on which it does not succeed, `check_files_equal`
returns the key-mismatch error. -/
theorem check_files_equal_error (data : List Data) (hne : data ≠ [])
    (h : check_files_equal data ≠ .ok ()) :
    check_files_equal data = .error "files does not have the same keys" := by
  cases data with
  | nil => exact absurd rfl hne
  | cons d ds =>
    have := equalLoop_cases (sortedKeys d) (ds.map sortedKeys)
    simp only [check_files_equal, List.map_cons, filesEqualCheck] at h ⊢
    rcases this with hok | herr
    · exact absurd hok h
    · exact herr

/-!
## Characterization of the key-length validator
-/

theorem sorted_head_le (a : Nat) (t : List Nat)
    (hs : List.Sorted (fun a b => a ≤ b) (a :: t)) : ∀ x ∈ a :: t, a ≤ x := by
  intro x hx
  rcases List.mem_cons.mp hx with hxa | hxt
  · rw [hxa]
  · exact List.rel_of_sorted_cons hs x hxt

theorem sorted_le_getLast : ∀ (l : List Nat) (h : l ≠ []),
    List.Sorted (fun a b => a ≤ b) l → ∀ x ∈ l, x ≤ l.getLast h := by
  intro l
  induction l with
  | nil => intro h; exact absurd rfl h
  | cons a t ih =>
    intro h hs x hx
    cases t with
    | nil =>
      rcases List.mem_cons.mp hx with hxa | hxt
      · rw [hxa]; exact le_rfl
      · cases hxt
    | cons b t' =>
      have hne : (b :: t') ≠ [] := by simp
      rw [List.getLast_cons hne]
      rcases List.mem_cons.mp hx with hxa | hxt
      · rw [hxa]
        exact List.rel_of_sorted_cons hs _ (List.getLast_mem hne)
      · exact ih hne hs.of_cons x hxt

/-- Success of `lengthCheck` on a sorted list of cardinalities: the list is
non-empty, all entries are non-zero and all entries are equal. -/
theorem lengthCheck_ok_iff (ns : List Nat)
    (hs : List.Sorted (fun a b => a ≤ b) ns) :
    lengthCheck ns = .ok () ↔
      ns ≠ [] ∧ (∀ n ∈ ns, n ≠ 0) ∧ ∀ n ∈ ns, ∀ m ∈ ns, n = m := by
  cases ns with
  | nil => simp [lengthCheck]
  | cons a t =>
    have hne : (a :: t) ≠ [] := by simp
    have hlast : (a :: t).getLast? = some ((a :: t).getLast hne) :=
      List.getLast?_eq_getLast _ hne
    have hmin : ∀ x ∈ a :: t, a ≤ x := sorted_head_le a t hs
    have hmax : ∀ x ∈ a :: t, x ≤ (a :: t).getLast hne :=
      sorted_le_getLast _ hne hs
    have hlastmem : (a :: t).getLast hne ∈ a :: t := List.getLast_mem hne
    simp only [lengthCheck, List.head?_cons, hlast]
    constructor
    · intro hok
      by_cases hc1 : a = 0 ∨ (a :: t).getLast hne = 0
      · rw [if_pos hc1] at hok; cases hok
      · rw [if_neg hc1] at hok
        by_cases hc2 : a ≠ (a :: t).getLast hne
        · rw [if_pos hc2] at hok; cases hok
        · push_neg at hc1
          push_neg at hc2
          refine ⟨hne, ?_, ?_⟩
          · intro n hn hn0
            exact hc1.1 (Nat.le_zero.mp (hn0 ▸ hmin n hn))
          · intro n hn m hm
            have h1 : n = a :=
              le_antisymm (by rw [hc2]; exact hmax n hn) (hmin n hn)
            have h2 : m = a :=
              le_antisymm (by rw [hc2]; exact hmax m hm) (hmin m hm)
            rw [h1, h2]
    · rintro ⟨-, hn0, hall⟩
      have ha0 : a ≠ 0 := hn0 a (List.mem_cons_self _ _)
      have haeq : a = (a :: t).getLast hne :=
        hall a (List.mem_cons_self _ _) _ hlastmem
      have hnc1 : ¬(a = 0 ∨ (a :: t).getLast hne = 0) := by
        rintro (h | h)
        · exact ha0 h
        · exact ha0 (haeq.trans h)
      have hnc2 : ¬(a ≠ (a :: t).getLast hne) := fun hcon => hcon haeq
      rw [if_neg hnc1, if_neg hnc2]

/-- Success of `check_key_length`: the input list is non-empty, no map is
empty, and all maps have equal cardinality. -/
theorem check_key_length_ok_iff (data : List Data) :
    check_key_length data = .ok () ↔
      data ≠ [] ∧ (∀ d ∈ data, d.len ≠ 0) ∧
        ∀ d ∈ data, ∀ e ∈ data, d.len = e.len := by
  have hperm : List.Perm ((data.map Data.len).insertionSort (fun a b => a ≤ b))
      (data.map Data.len) := List.perm_insertionSort _ _
  rw [check_key_length, lengthCheck_ok_iff _ (List.sorted_insertionSort _ _)]
  constructor
  · rintro ⟨hne, h0, hall⟩
    refine ⟨?_, ?_, ?_⟩
    · intro hdata
      subst hdata
      exact hne rfl
    · intro d hd
      exact h0 _ (hperm.mem_iff.mpr (List.mem_map_of_mem _ hd))
    · intro d hd e he
      exact hall _ (hperm.mem_iff.mpr (List.mem_map_of_mem _ hd)) _
        (hperm.mem_iff.mpr (List.mem_map_of_mem _ he))
  · rintro ⟨hne, h0, hall⟩
    refine ⟨?_, ?_, ?_⟩
    · intro hnil
      have hlen := hperm.length_eq
      rw [hnil] at hlen
      simp only [List.length_nil, List.length_map] at hlen
      exact hne (List.eq_nil_of_length_eq_zero hlen.symm)
    · intro n hn
      rcases List.mem_map.mp (hperm.mem_iff.mp hn) with ⟨d, hd, rfl⟩
      exact h0 d hd
    · intro n hn m hm
      rcases List.mem_map.mp (hperm.mem_iff.mp hn) with ⟨d, hd, rfl⟩
      rcases List.mem_map.mp (hperm.mem_iff.mp hm) with ⟨e, he, rfl⟩
      exact hall d hd e he

/-- On a sorted cardinality list containing a zero, `lengthCheck` reports the
empty-file error. -/
theorem lengthCheck_empty_error (ns : List Nat)
    (hs : List.Sorted (fun a b => a ≤ b) ns) (hne : ns ≠ [])
    (h0 : ∃ n ∈ ns, n = 0) : lengthCheck ns = .error "file is empty" := by
  cases ns with
  | nil => exact absurd rfl hne
  | cons a t =>
    obtain ⟨n, hn, hn0⟩ := h0
    have ha : a = 0 := Nat.le_zero.mp (hn0 ▸ sorted_head_le a t hs n hn)
    subst ha
    have hlast : (0 :: t).getLast? = some ((0 :: t).getLast (by simp)) :=
      List.getLast?_eq_getLast _ (by simp)
    simp [lengthCheck, hlast]

/-- On a non-empty batch containing an empty map, `check_key_length` reports
the empty-file error. -/
theorem check_key_length_empty_error (data : List Data) (hne : data ≠ [])
    (h0 : ∃ d ∈ data, d.len = 0) :
    check_key_length data = .error "file is empty" := by
  have hperm : List.Perm ((data.map Data.len).insertionSort (fun a b => a ≤ b))
      (data.map Data.len) := List.perm_insertionSort _ _
  rw [check_key_length]
  apply lengthCheck_empty_error _ (List.sorted_insertionSort _ _)
  · intro hnil
    have hlen := hperm.length_eq
    rw [hnil] at hlen
    simp only [List.length_nil, List.length_map] at hlen
    exact hne (List.eq_nil_of_length_eq_zero hlen.symm)
  · obtain ⟨d, hd, h⟩ := h0
    exact ⟨d.len, hperm.mem_iff.mpr (List.mem_map_of_mem _ hd), h⟩

/-!
## Characterization of the extension validator
-/

theorem check_file_extension_ok_iff : ∀ ps : List String,
    check_file_extension ps = .ok () ↔
      ∀ p ∈ ps, ends_with p ".json" = true ∨ ends_with p ".arb" = true := by
  intro ps
  induction ps with
  | nil => simp [check_file_extension]
  | cons p rest ih =>
    by_cases h : (!(ends_with p ".json") && !(ends_with p ".arb")) = true
    · simp only [check_file_extension, if_pos h]
      simp only [Bool.and_eq_true, Bool.not_eq_true'] at h
      constructor
      · intro hfalse; cases hfalse
      · intro hall
        rcases hall p (List.mem_cons_self _ _) with hj | ha
        · rw [h.1] at hj; cases hj
        · rw [h.2] at ha; cases ha
    · simp only [check_file_extension, if_neg h]
      rw [ih]
      simp only [Bool.and_eq_true, Bool.not_eq_true', not_and] at h
      constructor
      · intro hall q hq
        rcases List.mem_cons.mp hq with hqp | hqrest
        · rw [hqp]
          cases hj : ends_with p ".json"
          · cases ha : ends_with p ".arb"
            · exact absurd ha (h hj)
            · exact Or.inr rfl
          · exact Or.inl rfl
        · exact hall q hqrest
      · intro hall q hq
        exact hall q (List.mem_cons.mpr (Or.inr hq))

theorem check_file_extension_cases : ∀ ps : List String,
    check_file_extension ps = .ok () ∨
      check_file_extension ps = .error "file name must end with .json or .arb" := by
  intro ps
  induction ps with
  | nil => exact Or.inl rfl
  | cons p rest ih =>
    by_cases h : (!(ends_with p ".json") && !(ends_with p ".arb")) = true
    · simp [check_file_extension, h]
    · simpa [check_file_extension, h] using ih

/-!
## Totality and permutation stability
-/

theorem exceptUnit_cases (x : Except String Unit) :
    x = .ok () ∨ ∃ e, x = .error e := by
  cases x with
  | error e => exact Or.inr ⟨e, rfl⟩
  | ok u => cases u; exact Or.inl rfl

theorem check_key_length_ok_of_perm (data data' : List Data)
    (h : List.Perm data data') (hok : check_key_length data = .ok ()) :
    check_key_length data' = .ok () := by
  rw [check_key_length_ok_iff] at hok ⊢
  obtain ⟨hne, h0, hall⟩ := hok
  refine ⟨?_, ?_, ?_⟩
  · intro hnil
    rw [hnil] at h
    exact hne (List.perm_nil.mp h)
  · intro d hd
    exact h0 d (h.mem_iff.mpr hd)
  · intro d hd e he
    exact hall d (h.mem_iff.mpr hd) e (h.mem_iff.mpr he)

theorem check_files_equal_ok_of_perm (data data' : List Data)
    (h : List.Perm data data') (hok : check_files_equal data = .ok ()) :
    check_files_equal data' = .ok () := by
  rw [check_files_equal_ok_iff] at hok ⊢
  obtain ⟨hne, hall⟩ := hok
  refine ⟨?_, ?_⟩
  · intro hnil
    rw [hnil] at h
    exact hne (List.perm_nil.mp h)
  · intro d hd e he
    exact hall d (h.mem_iff.mpr hd) e (h.mem_iff.mpr he)

/-!
## Claims
-/

/-- Claim C1: for every non-empty list of key/value maps, `check_files_equal`
returns `Ok` if and only if all maps' key sets are pairwise identical
(values never enter the condition, so differing values are irrelevant); when
at least one key set differs, it returns the key-mismatch error. -/
theorem claim_C1_files_equal_iff_keysets (data : List Data) (hne : data ≠ []) :
    (check_files_equal data = .ok () ↔
      ∀ d ∈ data, ∀ e ∈ data, d.keys.toFinset = e.keys.toFinset) ∧
    (¬(∀ d ∈ data, ∀ e ∈ data, d.keys.toFinset = e.keys.toFinset) →
      check_files_equal data = .error "files does not have the same keys") := by
  constructor
  · rw [check_files_equal_ok_iff]
    exact and_iff_right hne
  · intro hnot
    apply check_files_equal_error data hne
    intro hok
    obtain ⟨-, hall⟩ := (check_files_equal_ok_iff data).mp hok
    exact hnot hall

/-- Witness for C1 at concrete inputs: two maps with equal key sets but
different values pass; two maps with a substituted key fail. -/
theorem claim_C1_witness :
    check_files_equal [mapKey12, mapKey12v] = .ok () ∧
    check_files_equal [mapKey12, mapKey32] =
      .error "files does not have the same keys" := by
  constructor
  · exact (claim_C1_files_equal_iff_keysets [mapKey12, mapKey12v]
      (by simp)).1.mpr (by decide)
  · exact (claim_C1_files_equal_iff_keysets [mapKey12, mapKey32]
      (by simp)).2 (by decide)

/-- Claim C2: for every non-empty list of key/value maps, `check_key_length`
returns `Ok` if and only if every map has the same non-zero cardinality. -/
theorem claim_C2_key_length_iff (data : List Data) (hne : data ≠ []) :
    check_key_length data = .ok () ↔
      (∀ d ∈ data, d.len ≠ 0) ∧ ∀ d ∈ data, ∀ e ∈ data, d.len = e.len := by
  rw [check_key_length_ok_iff]
  exact and_iff_right hne

/-- Witness for C2 at concrete inputs: equal non-zero cardinality passes, an
empty map fails, mixed cardinalities fail. -/
theorem claim_C2_witness :
    check_key_length [mapKey12, mapKey32] = .ok () ∧
    check_key_length [mapKey12, mapEmpty] ≠ .ok () ∧
    check_key_length [mapKey12, mapKey1] ≠ .ok () := by
  refine ⟨?_, ?_, ?_⟩
  · exact (claim_C2_key_length_iff [mapKey12, mapKey32] (by simp)).mpr (by decide)
  · intro h
    exact absurd ((claim_C2_key_length_iff [mapKey12, mapEmpty] (by simp)).mp h)
      (by decide)
  · intro h
    exact absurd ((claim_C2_key_length_iff [mapKey12, mapKey1] (by simp)).mp h)
      (by decide)

/-- Claim C3: with at least two files supplied, the pipeline evaluates
extension check, existence check, parse, key-length check and key-equality
check strictly in this order: the first failing stage's error is returned
(independently of anything a later stage would do — in particular a
key-length error is returned whatever `check_files_equal` would say), and
only when all earlier stages succeed is the result that of the key-equality
check. -/
theorem claim_C3_pipeline_order (fs : FS) (rj : String → Except String Data)
    (files : List String) (h2 : ¬ files.length < 2) :
    (∀ e, check_file_extension files = .error e →
      runMain fs rj files = .error e) ∧
    (∀ e, check_file_extension files = .ok () →
      checkAllExist fs files = .error e → runMain fs rj files = .error e) ∧
    (∀ e, check_file_extension files = .ok () →
      checkAllExist fs files = .ok () → readAll rj files = .error e →
      runMain fs rj files = .error e) ∧
    (∀ maps e, check_file_extension files = .ok () →
      checkAllExist fs files = .ok () → readAll rj files = .ok maps →
      check_key_length maps = .error e → runMain fs rj files = .error e) ∧
    (∀ maps, check_file_extension files = .ok () →
      checkAllExist fs files = .ok () → readAll rj files = .ok maps →
      check_key_length maps = .ok () →
      runMain fs rj files = check_files_equal maps) := by
  refine ⟨?_, ?_, ?_, ?_, ?_⟩ <;> intros <;> simp [runMain, h2, *]

/-- Witness for C3 at a concrete input: both files parse to the empty map, so
the pipeline stops at the key-length stage with the empty-file error. -/
theorem claim_C3_witness :
    runMain allFilesFS (fun _ => .ok mapEmpty) ["a.json", "b.json"] =
      .error "file is empty" :=
  (claim_C3_pipeline_order allFilesFS (fun _ => .ok mapEmpty)
      ["a.json", "b.json"] (by decide)).2.2.2.1
    [mapEmpty, mapEmpty] "file is empty" rfl rfl rfl rfl

/-- Claim C4: `check_file_extension` succeeds exactly on lists in which every
path ends (case-sensitively) in `.json` or `.arb` — vacuously including the
empty list — and on any other list it returns the extension error. -/
theorem claim_C4_extension_allowlist (paths : List String) :
    (check_file_extension paths = .ok () ↔
      ∀ p ∈ paths, ends_with p ".json" = true ∨ ends_with p ".arb" = true) ∧
    (check_file_extension paths ≠ .ok () →
      check_file_extension paths =
        .error "file name must end with .json or .arb") := by
  refine ⟨check_file_extension_ok_iff paths, ?_⟩
  intro h
  rcases check_file_extension_cases paths with hok | herr
  · exact absurd hok h
  · exact herr

/-- Witness for C4 at concrete inputs: conforming lists (and the empty list)
pass, a `.txt` path fails. -/
theorem claim_C4_witness :
    check_file_extension [] = .ok () ∧
    check_file_extension ["a.json", "b.arb"] = .ok () ∧
    check_file_extension ["notes.txt", "a.json"] =
      .error "file name must end with .json or .arb" := by
  refine ⟨?_, ?_, ?_⟩
  · exact (claim_C4_extension_allowlist []).1.mpr (by simp)
  · exact (claim_C4_extension_allowlist ["a.json", "b.arb"]).1.mpr (by decide)
  · exact (claim_C4_extension_allowlist ["notes.txt", "a.json"]).2
      (by intro h; exact absurd ((claim_C4_extension_allowlist _).1.mp h) (by decide))

/-- Claim C5: `check_files_exist` distinguishes its error conditions in
priority order: a failing existence probe yields the distinct probe-failure
error; otherwise a non-existing path yields the not-found error; otherwise a
path that is not a regular file yields the not-a-file error; an existing
regular file yields `Ok`. -/
theorem claim_C5_exist_priority (fs : FS) (p : String) :
    (∀ e, fs.tryExists p = .error e →
      check_files_exist fs p = .error ("file permission related issue: " ++ e)) ∧
    (fs.tryExists p = .ok false →
      check_files_exist fs p = .error "file does not exist") ∧
    (fs.tryExists p = .ok true → fs.isFile p = false →
      check_files_exist fs p = .error "given path is not a file") ∧
    (fs.tryExists p = .ok true → fs.isFile p = true →
      check_files_exist fs p = .ok ()) := by
  refine ⟨?_, ?_, ?_, ?_⟩ <;> intros <;> simp [check_files_exist, *]

/-- Witness for C5 at concrete inputs: a failing probe, a missing file, a
directory and a regular file each produce their distinct outcome. -/
theorem claim_C5_witness :
    check_files_exist probeFailFS "a.json" =
      .error ("file permission related issue: " ++ "probe failed") ∧
    check_files_exist oneFileFS "missing.json" = .error "file does not exist" ∧
    check_files_exist oneFileFS "somedir" = .error "given path is not a file" ∧
    check_files_exist oneFileFS "a.json" = .ok () :=
  ⟨(claim_C5_exist_priority probeFailFS "a.json").1 "probe failed" rfl,
   (claim_C5_exist_priority oneFileFS "missing.json").2.1 rfl,
   (claim_C5_exist_priority oneFileFS "somedir").2.2.1 rfl rfl,
   (claim_C5_exist_priority oneFileFS "a.json").2.2.2 rfl rfl⟩

/-- Claim C6: the key-length check is a necessary but not sufficient
precondition for key-set equality: on any non-empty list of non-empty maps
on which `check_files_equal` succeeds, `check_key_length` succeeds as well;
but on the two cardinality-2 maps `{key1, key2}` and `{key3, key2}`,
`check_key_length` succeeds while `check_files_equal` fails. -/
theorem claim_C6_length_necessary_not_sufficient :
    (∀ data : List Data, data ≠ [] → (∀ d ∈ data, d.len ≠ 0) →
      check_files_equal data = .ok () → check_key_length data = .ok ()) ∧
    check_key_length [mapKey12, mapKey32] = .ok () ∧
    check_files_equal [mapKey12, mapKey32] =
      .error "files does not have the same keys" := by
  refine ⟨?_, by rfl, by rfl⟩
  intro data hne h0 heq
  rw [check_files_equal_ok_iff] at heq
  obtain ⟨-, hkeys⟩ := heq
  rw [check_key_length_ok_iff]
  refine ⟨hne, h0, ?_⟩
  intro d hd e he
  have hdcard : d.keys.toFinset.card = d.len := by
    simp only [Data.keys, Data.len]
    exact (List.toFinset_card_of_nodup d.nodup_keys).trans (List.length_map _ _)
  have hecard : e.keys.toFinset.card = e.len := by
    simp only [Data.keys, Data.len]
    exact (List.toFinset_card_of_nodup e.nodup_keys).trans (List.length_map _ _)
  rw [← hdcard, ← hecard, hkeys d hd e he]

/-- Witness for C6: the necessity direction applied at a concrete input with
equal key sets and non-empty maps. -/
theorem claim_C6_witness :
    check_key_length [mapKey12, mapKey12v] = .ok () :=
  claim_C6_length_necessary_not_sufficient.1 [mapKey12, mapKey12v]
    (by simp) (by decide) rfl

/-- Claim C7: on any non-empty batch containing an empty map,
`check_key_length` fails with the empty-file error — also when the remaining
maps have differing cardinalities, so this error takes priority over the
cardinality-mismatch error. -/
theorem claim_C7_empty_file_priority (data : List Data) (hne : data ≠ [])
    (h0 : ∃ d ∈ data, d.len = 0) :
    check_key_length data = .error "file is empty" :=
  check_key_length_empty_error data hne h0

/-- Witness for C7 at a concrete input whose non-empty maps have differing
cardinalities (1 and 2): the empty-file error still wins. -/
theorem claim_C7_witness :
    check_key_length [mapKey1, mapEmpty, mapKey12] = .error "file is empty" :=
  claim_C7_empty_file_priority [mapKey1, mapEmpty, mapKey12] (by simp)
    ⟨mapEmpty, by simp, rfl⟩

/-- Claim C8: on an empty input list both batch validators return their
no-input error (the `wrap_err` message of the failed first-element access)
rather than succeeding or panicking, and both validators are total: on every
input they return either `Ok` or some error. -/
theorem claim_C8_no_input_total :
    check_key_length ([] : List Data) = .error "no first item" ∧
    check_files_equal ([] : List Data) = .error "could not get first item" ∧
    (∀ data : List Data,
      check_key_length data = .ok () ∨ ∃ e, check_key_length data = .error e) ∧
    (∀ data : List Data,
      check_files_equal data = .ok () ∨ ∃ e, check_files_equal data = .error e) :=
  ⟨rfl, rfl, fun _ => exceptUnit_cases _, fun _ => exceptUnit_cases _⟩

/-- Claim C9: with fewer than two paths supplied, `main` fails with the usage
error before any pipeline stage runs — the result does not depend on the
filesystem, the parser, or the paths' contents — and that usage error is
distinct from every validator error message. -/
theorem claim_C9_usage_guard (fs : FS) (rj : String → Except String Data)
    (files : List String) (h : files.length < 2) :
    runMain fs rj files = .error "provide at least two files" ∧
    "provide at least two files" ∉ ["file name must end with .json or .arb",
      "file does not exist", "given path is not a file", "no first item",
      "no last item", "file is empty",
      "files does not have the same key-value pair",
      "files does not have the same keys", "could not get first item"] := by
  refine ⟨?_, by decide⟩
  simp only [runMain, if_pos h]

/-- Witness for C9 at a concrete input: a single path with a bad extension on
a filesystem where every probe fails still yields the usage error. -/
theorem claim_C9_witness :
    runMain probeFailFS (fun _ => .error "read failed") ["a.txt"] =
      .error "provide at least two files" :=
  (claim_C9_usage_guard probeFailFS (fun _ => .error "read failed")
    ["a.txt"] (by decide)).1

/-- Claim C10: the pass/fail verdicts of `check_key_length` and
`check_files_equal` are invariant under permutation of the input list. -/
theorem claim_C10_perm_invariance (data data' : List Data)
    (h : List.Perm data data') :
    (check_key_length data = .ok () ↔ check_key_length data' = .ok ()) ∧
    (check_files_equal data = .ok () ↔ check_files_equal data' = .ok ()) :=
  ⟨⟨check_key_length_ok_of_perm data data' h,
    check_key_length_ok_of_perm data' data h.symm⟩,
   ⟨check_files_equal_ok_of_perm data data' h,
    check_files_equal_ok_of_perm data' data h.symm⟩⟩

/-- Witness for C10 at a concrete transposition of two maps. -/
theorem claim_C10_witness :
    (check_key_length [mapKey32, mapKey12] = .ok () ↔
      check_key_length [mapKey12, mapKey32] = .ok ()) ∧
    (check_files_equal [mapKey32, mapKey12] = .ok () ↔
      check_files_equal [mapKey12, mapKey32] = .ok ()) :=
  claim_C10_perm_invariance [mapKey32, mapKey12] [mapKey12, mapKey32]
    (List.Perm.swap mapKey12 mapKey32 [])

end ArbChecker
